import Mathlib

/-!
# testutil: the test-or-benchmark handle (pkg/testutil/testorbench.go)

A shallow embedding of `UnionTB` and its four methods, `Run`, `N`, `ResetTimer`
and `IsBenchmark`, together with the constructor `NewTB`.

Go's package `testing` is not part of the repository.  It enters the embedding as a
parameter: the types `T` and `B` stand for live `*testing.T` and `*testing.B`
contexts created by the framework, `σ` for the whole mutable state behind them, and
the record `Testing` for the four framework operations the file calls.

Every method is a state-passing function that returns an `Outcome`: either a
normal return with a value and the state reached, or an abort (a Go panic) with
its message and the state at the moment of the abort.
-/

namespace testutil

/-! ## Data model -/

/-- Result of executing a method: a normal return, or a panic. Both carry the
framework state reached, so that anything done before an abort stays visible. -/
inductive Outcome (σ α : Type) where
  | ret (val : α) (s : σ)
  | abort (msg : String) (s : σ)
deriving DecidableEq, Repr

/-- A state-passing computation over the framework state. -/
abbrev Exec (σ α : Type) : Type := σ → Outcome σ α

/-- Sequencing: run x, and when it returns normally continue with y. -/
def Exec.andThen {σ α β : Type} (x : Exec σ α) (y : α → Exec σ β) : Exec σ β :=
  fun s =>
    match x s with
    | .ret a s1 => y a s1
    | .abort m s1 => .abort m s1

/-- The value held in a `testing.TB` interface, by dynamic type. `other` stands
for every value that is neither a `*testing.T` nor a `*testing.B`: another
implementation of the interface (a `*UnionTB` is one, see line 34 of the source)
or the nil interface. -/
inductive TestingTB (T B O : Type) where
  | testingT (t : T)
  | testingB (b : B)
  | other (o : O)
deriving DecidableEq, Repr

/-- The type assertion `tb.TB.(*testing.B)`: the benchmark context when ok. -/
def TestingTB.assertB {T B O : Type} : TestingTB T B O → Option B
  | .testingB b => some b
  | _ => none

/-- The type assertion `tb.TB.(*testing.T)`: the test context when ok. -/
def TestingTB.assertT {T B O : Type} : TestingTB T B O → Option T
  | .testingT t => some t
  | _ => none

/-- The operations of package `testing` that the file calls, over the framework
state `σ`. A sub-case function is a state transformer; `tRun` and `bRun` receive
it and decide themselves when and how often to apply it. -/
structure Testing (σ T B : Type) where
  /-- Method `(*testing.T).Run`. -/
  tRun : T → String → (T → σ → σ) → σ → Bool × σ
  /-- Method `(*testing.B).Run`. -/
  bRun : B → String → (B → σ → σ) → σ → Bool × σ
  /-- Field `b.N`. -/
  bN : B → σ → Int
  /-- Method `(*testing.B).ResetTimer`. -/
  bResetTimer : B → σ → σ

/-- The struct `UnionTB`: one embedded `testing.TB` and nothing else. -/
structure UnionTB (T B O : Type) where
  TB : TestingTB T B O
deriving DecidableEq, Repr

/-! ## Operations -/

variable {σ T B O : Type}

/-- Source: `func NewTB(tb testing.TB) TB { return &UnionTB{TB: tb} }`. -/
def NewTB (tb : TestingTB T B O) : UnionTB T B O :=
  UnionTB.mk tb

/-- Method `Run`: delegate to the benchmark's or the test's own `Run`, handing it
a function that re-wraps the nested context before calling `f`; panic when the
wrapped value is neither. -/
def UnionTB.Run (fw : Testing σ T B) (tb : UnionTB T B O) (name : String)
    (f : UnionTB T B O → σ → σ) : Exec σ Bool :=
  fun s =>
    match tb.TB.assertB with
    | some b =>
      let r := fw.bRun b name (fun nested => f (UnionTB.mk (.testingB nested))) s
      .ret r.1 r.2
    | none =>
      match tb.TB.assertT with
      | some t =>
        let r := fw.tRun t name (fun nested => f (UnionTB.mk (.testingT nested))) s
        .ret r.1 r.2
      | none => .abort "not a benchmark and not a test" s

/-- Method `N`: the benchmark's `b.N`, else 1. -/
def UnionTB.N (fw : Testing σ T B) (tb : UnionTB T B O) : Exec σ Int :=
  fun s =>
    match tb.TB.assertB with
    | some b => .ret (fw.bN b s) s
    | none => .ret 1 s

/-- Method `ResetTimer`: the benchmark's `b.ResetTimer()`, else nothing. -/
def UnionTB.ResetTimer (fw : Testing σ T B) (tb : UnionTB T B O) : Exec σ Unit :=
  fun s =>
    match tb.TB.assertB with
    | some b => .ret () (fw.bResetTimer b s)
    | none => .ret () s

/-- Method `IsBenchmark`: whether the assertion to `*testing.B` succeeds. -/
def UnionTB.IsBenchmark (tb : UnionTB T B O) : Exec σ Bool :=
  fun s =>
    match tb.TB.assertB with
    | some _ => .ret true s
    | none => .ret false s

/-- A `*UnionTB` used where a `testing.TB` is expected. The struct embeds
`testing.TB`, so the handle implements that interface itself (line 34 of the
source: "UnionTB implements TB as well as testing.TB interfaces"); its dynamic
type is `*UnionTB`, neither `*testing.T` nor `*testing.B`. -/
def UnionTB.asTestingTB (u : UnionTB T B O) : TestingTB T B (UnionTB T B O) :=
  .other u

/-- The outcome of `Run` at state `s` is that of applying the body one single
time: to one handle `u`, at one state `s1`, followed by a continuation `fin` that
does not look at the body again. -/
def InvokesBodyOnce (fw : Testing σ T B) (tb : UnionTB T B O) (name : String) (s : σ) : Prop :=
  ∃ (u : UnionTB T B O) (s1 : σ) (fin : σ → Outcome σ Bool),
    ∀ f : UnionTB T B O → σ → σ, tb.Run fw name f s = fin (f u s1)

/-! ## Concrete frameworks, used to instantiate the statements -/

/-- A small framework state: the iteration count of the one benchmark context,
its elapsed timer, and the number of times a counting body has run. -/
structure Sim where
  n : Int
  elapsed : Nat
  runs : Nat
deriving DecidableEq, Repr

/-- A framework whose `Run` applies the sub-case function once, to the parent
context itself, and reports success; the timer reset clears `elapsed`. -/
def simFw : Testing Sim Unit Unit where
  tRun := fun _ _ cb s => (true, cb () s)
  bRun := fun _ _ cb s => (true, cb () s)
  bN := fun _ s => s.n
  bResetTimer := fun _ s => Sim.mk s.n 0 s.runs

/-- A framework whose benchmark `Run` works the way Go's benchmark runner does:
it applies the benchmark function a first time with `b.N = 1` and then again with
the configured iteration count. Tests run once. -/
def probeFw : Testing Sim Unit Unit where
  tRun := fun _ _ cb s => (true, cb () s)
  bRun := fun _ _ cb s =>
    let s1 := cb () (Sim.mk 1 s.elapsed s.runs)
    (true, cb () (Sim.mk s.n s1.elapsed s1.runs))
  bN := fun _ s => s.n
  bResetTimer := fun _ s => Sim.mk s.n 0 s.runs

/-- A body that only records that it ran, whatever handle it is given. -/
def tick {O : Type} (_u : UnionTB Unit Unit O) (s : Sim) : Sim :=
  Sim.mk s.n s.elapsed (s.runs + 1)

/-- A body that records that it ran when its handle is in test mode, and clears
the state when its handle claims to be a benchmark. -/
def tickIfTest (u : UnionTB Unit Unit Unit) (s : Sim) : Sim :=
  match u.TB with
  | .testingB _ => Sim.mk 0 0 0
  | _ => Sim.mk s.n s.elapsed (s.runs + 1)

/-- The handle `NewTB(t)` for the one test context of the concrete frameworks. -/
def testHandle : UnionTB Unit Unit Unit :=
  NewTB (.testingT ())

/-- The handle `NewTB(b)` for the one benchmark context of the concrete frameworks. -/
def benchHandle : UnionTB Unit Unit Unit :=
  NewTB (.testingB ())

/-! ## Nil pointers

`T` and `B` above are live contexts. A `testing.TB` can also hold a nil pointer of
type `*testing.T` or `*testing.B`; `NewTB` stores it like any other value. The
definitions below embed `N` and `ResetTimer` once more over `Ptr T` and `Ptr B`,
where the dereference of line 54 and the call of line 61 can fault. -/

/-- A Go pointer: nil, or the address of a live context. -/
inductive Ptr (α : Type) where
  | nil
  | addr (a : α)
deriving DecidableEq, Repr

/-- The message of the Go runtime error raised by a nil dereference. -/
def nilDereference : String :=
  "runtime error: invalid memory address or nil pointer dereference"

/-- Method `N` over pointers: the type assertion succeeds on a nil `*testing.B`
too, and `b.N` then dereferences nil. -/
def Nilable.N (fw : Testing σ T B) (tb : UnionTB (Ptr T) (Ptr B) O) : Exec σ Int :=
  fun s =>
    match tb.TB.assertB with
    | some (.addr b) => .ret (fw.bN b s) s
    | some .nil => .abort nilDereference s
    | none => .ret 1 s

/-- Method `ResetTimer` over pointers: on a nil `*testing.B` the call
`b.ResetTimer()` faults at its first access to the receiver. -/
def Nilable.ResetTimer (fw : Testing σ T B) (tb : UnionTB (Ptr T) (Ptr B) O) :
    Exec σ Unit :=
  fun s =>
    match tb.TB.assertB with
    | some (.addr b) => .ret () (fw.bResetTimer b s)
    | some .nil => .abort nilDereference s
    | none => .ret () s

/-- The handle `NewTB((*testing.B)(nil))`. -/
def nilBenchHandle : UnionTB (Ptr Unit) (Ptr Unit) Unit :=
  NewTB (.testingB .nil)

/-- A framework state with a clock: the iteration count, the current time, and
the time at which the benchmark timer was last started. -/
structure Stopwatch where
  n : Int
  now : Nat
  start : Nat
deriving DecidableEq, Repr

/-- A framework whose timer reset restarts the running timer at the current
reading of the clock, the way Go's reset sets `b.start`; the clock has moved on
by the time the call returns. -/
def clockFw : Testing Stopwatch Unit Unit where
  tRun := fun _ _ cb s => (true, cb () s)
  bRun := fun _ _ cb s => (true, cb () s)
  bN := fun _ s => s.n
  bResetTimer := fun _ s => Stopwatch.mk s.n (s.now + 1) s.now

/-! ## Properties -/

/-- Claim C1: `IsBenchmark` on `NewTB c` returns true exactly when `c` is a
benchmark context; it returns false on every test context, and it always
returns. -/
theorem isBenchmark_newTB (c : TestingTB T B O) (s : σ) :
    ((NewTB c).IsBenchmark s = .ret true s ↔ ∃ b, c = .testingB b) ∧
    (∀ t : T, (NewTB (.testingT t : TestingTB T B O)).IsBenchmark s = .ret false s) ∧
    (∃ v, (NewTB c).IsBenchmark s = .ret v s) := by
  refine ⟨?_, fun t => rfl, ?_⟩
  · cases c <;> simp [NewTB, UnionTB.IsBenchmark, TestingTB.assertB]
  · cases c <;> simp [NewTB, UnionTB.IsBenchmark, TestingTB.assertB]

/-- Claim C2: on a benchmark context whose iteration count is `n`, `N` returns
exactly `n`; on every test context it returns exactly 1. Neither changes the
state. -/
theorem n_newTB (fw : Testing σ T B) (s : σ) (b : B) (n : Int) (hn : fw.bN b s = n) :
    (NewTB (.testingB b : TestingTB T B O)).N fw s = .ret n s ∧
    ∀ t : T, (NewTB (.testingT t : TestingTB T B O)).N fw s = .ret 1 s := by
  refine ⟨?_, fun t => rfl⟩
  simp [NewTB, UnionTB.N, TestingTB.assertB, hn]

/-- Witness for C2: a benchmark configured with 100 iterations reports 100. -/
theorem n_newTB_witness :
    simFw.bN () (Sim.mk 100 0 0) = 100 ∧
    benchHandle.N simFw (Sim.mk 100 0 0) = .ret 100 (Sim.mk 100 0 0) :=
  ⟨rfl, (@n_newTB Sim Unit Unit Unit simFw (Sim.mk 100 0 0) () 100 rfl).1⟩

/-- Claim C3: on a handle that wraps a test context `ResetTimer` returns with
the framework state exactly as it was, and the result is the same whatever the
framework's timer reset is, so that operation is not run. -/
theorem resetTimer_test_noop (fw : Testing σ T B) (t : T) (s : σ) :
    (NewTB (.testingT t : TestingTB T B O)).ResetTimer fw s = .ret () s ∧
    ∀ r : B → σ → σ,
      (NewTB (.testingT t : TestingTB T B O)).ResetTimer
        (Testing.mk fw.tRun fw.bRun fw.bN r) s = .ret () s :=
  ⟨rfl, fun _ => rfl⟩

/-- Claim C4: `Run` hands the body only handles of the parent's variant. Two
bodies that agree on every handle whose `IsBenchmark` answer (and whose test
assertion) equals the parent's are indistinguishable to `Run`: what a body would
do on a handle of another variant never matters. -/
theorem run_nested_variant (fw : Testing σ T B) (tb : UnionTB T B O) (name : String)
    (f g : UnionTB T B O → σ → σ) (s : σ)
    (h : ∀ u : UnionTB T B O, u.IsBenchmark s = tb.IsBenchmark s →
      u.TB.assertT.isSome = tb.TB.assertT.isSome → f u = g u) :
    tb.Run fw name f s = tb.Run fw name g s := by
  obtain ⟨c⟩ := tb
  cases c with
  | testingT t =>
    have hfg : (fun nested => f (UnionTB.mk (.testingT nested)))
        = (fun nested => g (UnionTB.mk (.testingT nested))) :=
      funext fun nested => h _ rfl rfl
    simp only [UnionTB.Run, TestingTB.assertB, TestingTB.assertT, hfg]
  | testingB b =>
    have hfg : (fun nested => f (UnionTB.mk (.testingB nested)))
        = (fun nested => g (UnionTB.mk (.testingB nested))) :=
      funext fun nested => h _ rfl rfl
    simp only [UnionTB.Run, TestingTB.assertB, hfg]
  | other o => rfl

/-- Witness for C4: under a test parent, a body that would wipe the state on a
benchmark handle behaves exactly like the plain counting body. -/
theorem run_nested_variant_witness :
    testHandle.Run simFw "child" tickIfTest (Sim.mk 7 3 0)
      = testHandle.Run simFw "child" tick (Sim.mk 7 3 0) :=
  run_nested_variant simFw testHandle "child" tickIfTest tick (Sim.mk 7 3 0)
    (fun u hb _ => by
      obtain ⟨c⟩ := u
      cases c with
      | testingT t => rfl
      | testingB b => simp [testHandle, NewTB, UnionTB.IsBenchmark, TestingTB.assertB] at hb
      | other o => rfl)

/-- Claim C6: the result of `Run` is the result of the framework's own nested
`Run` for the same name and the re-wrapped body: same verdict, same state. -/
theorem run_result_is_framework_result (fw : Testing σ T B) (name : String)
    (f : UnionTB T B O → σ → σ) (s : σ) :
    (∀ b : B, (NewTB (.testingB b)).Run fw name f s
      = .ret (fw.bRun b name (fun nested => f (NewTB (.testingB nested))) s).1
          (fw.bRun b name (fun nested => f (NewTB (.testingB nested))) s).2) ∧
    (∀ t : T, (NewTB (.testingT t)).Run fw name f s
      = .ret (fw.tRun t name (fun nested => f (NewTB (.testingT nested))) s).1
          (fw.tRun t name (fun nested => f (NewTB (.testingT nested))) s).2) :=
  ⟨fun _ => rfl, fun _ => rfl⟩

/-- Counterexample for C5: under a framework that runs a benchmark function
twice (a probe with `b.N = 1`, then the measured run), `Run` invokes the body
twice: the counting body leaves 2 in `runs`, and no single application of the
body accounts for the outcome. -/
theorem run_bench_invokes_body_twice :
    benchHandle.Run probeFw "x" tick (Sim.mk 100 0 0) = .ret true (Sim.mk 100 0 2) ∧
    ¬ InvokesBodyOnce probeFw benchHandle "x" (Sim.mk 100 0 0) := by
  refine ⟨rfl, ?_⟩
  rintro ⟨u, s1, fin, h⟩
  have hfin : ∀ c : Sim, fin c = .ret true c := fun c => (h (fun _ _ => c)).symm
  have h1 := h (fun _ s => Sim.mk s.n s.elapsed (s.runs + 1))
  have h2 := h (fun _ s => Sim.mk s.n s.elapsed (s.runs + 2))
  rw [hfin] at h1 h2
  simp [benchHandle, NewTB, UnionTB.Run, TestingTB.assertB, probeFw] at h1 h2
  omega

/-- Claim C5, amended: whenever the framework's nested `Run` applies the function
it is given exactly once (it sets up a nested context, applies the function,
then finishes), `Run` invokes the body exactly once, on the re-wrapped nested
context. This holds for benchmark handles and for test handles alike. -/
theorem run_invokes_body_once_when_framework_does (fw : Testing σ T B) (name : String)
    (s : σ) :
    (∀ (b : B) (setup : σ → B × σ) (finish : σ → Bool × σ),
      (∀ cb s0, fw.bRun b name cb s0 = finish (cb (setup s0).1 (setup s0).2)) →
      (∀ f : UnionTB T B O → σ → σ, (NewTB (.testingB b)).Run fw name f s
        = .ret (finish (f (NewTB (.testingB (setup s).1)) (setup s).2)).1
            (finish (f (NewTB (.testingB (setup s).1)) (setup s).2)).2) ∧
      InvokesBodyOnce fw (NewTB (.testingB b) : UnionTB T B O) name s) ∧
    (∀ (t : T) (setup : σ → T × σ) (finish : σ → Bool × σ),
      (∀ cb s0, fw.tRun t name cb s0 = finish (cb (setup s0).1 (setup s0).2)) →
      (∀ f : UnionTB T B O → σ → σ, (NewTB (.testingT t)).Run fw name f s
        = .ret (finish (f (NewTB (.testingT (setup s).1)) (setup s).2)).1
            (finish (f (NewTB (.testingT (setup s).1)) (setup s).2)).2) ∧
      InvokesBodyOnce fw (NewTB (.testingT t) : UnionTB T B O) name s) := by
  constructor
  · intro b setup finish hOnce
    have key : ∀ f : UnionTB T B O → σ → σ, (NewTB (.testingB b)).Run fw name f s
        = .ret (finish (f (NewTB (.testingB (setup s).1)) (setup s).2)).1
            (finish (f (NewTB (.testingB (setup s).1)) (setup s).2)).2 := by
      intro f
      simp only [NewTB, UnionTB.Run, TestingTB.assertB, hOnce]
    exact ⟨key, NewTB (.testingB (setup s).1), (setup s).2,
      fun x => .ret (finish x).1 (finish x).2, key⟩
  · intro t setup finish hOnce
    have key : ∀ f : UnionTB T B O → σ → σ, (NewTB (.testingT t)).Run fw name f s
        = .ret (finish (f (NewTB (.testingT (setup s).1)) (setup s).2)).1
            (finish (f (NewTB (.testingT (setup s).1)) (setup s).2)).2 := by
      intro f
      simp only [NewTB, UnionTB.Run, TestingTB.assertB, TestingTB.assertT, hOnce]
    exact ⟨key, NewTB (.testingT (setup s).1), (setup s).2,
      fun x => .ret (finish x).1 (finish x).2, key⟩

/-- Witness for C5 (amended): the framework that runs a sub-case once makes `Run`
on the benchmark handle invoke the counting body once. -/
theorem run_invokes_body_once_witness :
    benchHandle.Run simFw "x" tick (Sim.mk 100 0 0) = .ret true (Sim.mk 100 0 1) ∧
    InvokesBodyOnce simFw benchHandle "x" (Sim.mk 100 0 0) :=
  ⟨rfl,
    ((@run_invokes_body_once_when_framework_does Sim Unit Unit Unit simFw "x"
      (Sim.mk 100 0 0)).1 () (fun s0 => ((), s0)) (fun s0 => (true, s0))
      (fun _ _ => rfl)).2⟩

/-- Claim C7: `Run` aborts exactly when the wrapped value is neither a test nor a
benchmark context. When it aborts, the message is the fixed one, the state is
still the initial state, and the outcome is the same for every framework and
every body: neither the body nor the framework's `Run` has been used. -/
theorem run_aborts_iff_neither (fw : Testing σ T B) (tb : UnionTB T B O) (name : String)
    (f : UnionTB T B O → σ → σ) (s : σ) :
    ((∃ m s1, tb.Run fw name f s = .abort m s1) ↔
      (∀ t, tb.TB ≠ .testingT t) ∧ (∀ b, tb.TB ≠ .testingB b)) ∧
    (∀ m s1, tb.Run fw name f s = .abort m s1 →
      m = "not a benchmark and not a test" ∧ s1 = s ∧
      ∀ (fw2 : Testing σ T B) (g : UnionTB T B O → σ → σ),
        tb.Run fw2 name g s = .abort m s) := by
  obtain ⟨c⟩ := tb
  cases c with
  | testingT t => simp [UnionTB.Run, TestingTB.assertB, TestingTB.assertT]
  | testingB b => simp [UnionTB.Run, TestingTB.assertB]
  | other o =>
    refine ⟨⟨fun _ => ⟨fun t => by simp, fun b => by simp⟩, fun _ => ⟨_, _, rfl⟩⟩, ?_⟩
    intro m s1 h
    simp only [UnionTB.Run, TestingTB.assertB, TestingTB.assertT, Outcome.abort.injEq] at h
    obtain ⟨hm, hs⟩ := h
    subst hm hs
    exact ⟨rfl, rfl, fun _ _ => rfl⟩

/-- Counterexample for C8: `NewTB` accepts a `*UnionTB`, which is itself a
`testing.TB`; on the handle built from it `Run` reaches the abort. -/
theorem run_aborts_on_wrapped_handle :
    (NewTB testHandle.asTestingTB).Run simFw "child" tick (Sim.mk 7 3 0)
      = .abort "not a benchmark and not a test" (Sim.mk 7 3 0) :=
  rfl

/-- Claim C8, amended: for every context that is a test or a benchmark context,
`Run` on `NewTB c` returns normally, whatever the name and the body. -/
theorem run_returns_on_test_or_bench (fw : Testing σ T B) (c : TestingTB T B O)
    (name : String) (f : UnionTB T B O → σ → σ) (s : σ)
    (h : (∃ t, c = .testingT t) ∨ (∃ b, c = .testingB b)) :
    ∃ ok s1, (NewTB c).Run fw name f s = .ret ok s1 := by
  rcases h with ⟨t, rfl⟩ | ⟨b, rfl⟩
  · exact ⟨_, _, rfl⟩
  · exact ⟨_, _, rfl⟩

/-- Witness for C8 (amended): the test handle of the concrete framework. -/
theorem run_returns_on_test_or_bench_witness :
    ((∃ t, (TestingTB.testingT () : TestingTB Unit Unit Unit) = .testingT t) ∨
      (∃ b, (TestingTB.testingT () : TestingTB Unit Unit Unit) = .testingB b)) ∧
    ∃ ok s1, testHandle.Run simFw "child" tick (Sim.mk 7 3 0) = .ret ok s1 :=
  ⟨Or.inl ⟨(), rfl⟩,
    run_returns_on_test_or_bench simFw (.testingT ()) "child" tick (Sim.mk 7 3 0)
      (Or.inl ⟨(), rfl⟩)⟩

/-- Counterexample for C9: under a framework whose reset restarts the timer at
the current clock reading, two calls of `ResetTimer` in a row do not end in the
state one call ends in. -/
theorem resetTimer_twice_differs_from_once :
    Exec.andThen (benchHandle.ResetTimer clockFw) (fun _ => benchHandle.ResetTimer clockFw)
        (Stopwatch.mk 100 5 0) = .ret () (Stopwatch.mk 100 7 6) ∧
    benchHandle.ResetTimer clockFw (Stopwatch.mk 100 5 0) = .ret () (Stopwatch.mk 100 6 5) ∧
    Exec.andThen (benchHandle.ResetTimer clockFw) (fun _ => benchHandle.ResetTimer clockFw)
        (Stopwatch.mk 100 5 0) ≠ benchHandle.ResetTimer clockFw (Stopwatch.mk 100 5 0) := by
  refine ⟨rfl, rfl, ?_⟩
  simp [Exec.andThen, benchHandle, NewTB, UnionTB.ResetTimer, TestingTB.assertB, clockFw]

/-- Claim C9, amended: on a handle that wraps a benchmark context each
`ResetTimer` call is exactly one application of the framework's timer reset, so
two calls in a row are two applications. Two calls end in the state of one call
exactly when the framework's reset is idempotent at that state, and `N` returns
after a call the count it returned before exactly when the framework's reset
leaves `b.N` unchanged there. -/
theorem resetTimer_bench_forwards (fw : Testing σ T B) (b : B) (s : σ) :
    (NewTB (.testingB b) : UnionTB T B O).ResetTimer fw s
      = .ret () (fw.bResetTimer b s) ∧
    Exec.andThen ((NewTB (.testingB b) : UnionTB T B O).ResetTimer fw)
        (fun _ => (NewTB (.testingB b) : UnionTB T B O).ResetTimer fw) s
      = .ret () (fw.bResetTimer b (fw.bResetTimer b s)) ∧
    (Exec.andThen ((NewTB (.testingB b) : UnionTB T B O).ResetTimer fw)
        (fun _ => (NewTB (.testingB b) : UnionTB T B O).ResetTimer fw) s
      = (NewTB (.testingB b) : UnionTB T B O).ResetTimer fw s ↔
      fw.bResetTimer b (fw.bResetTimer b s) = fw.bResetTimer b s) ∧
    (NewTB (.testingB b) : UnionTB T B O).N fw s = .ret (fw.bN b s) s ∧
    Exec.andThen ((NewTB (.testingB b) : UnionTB T B O).ResetTimer fw)
        (fun _ => (NewTB (.testingB b) : UnionTB T B O).N fw) s
      = .ret (fw.bN b (fw.bResetTimer b s)) (fw.bResetTimer b s) ∧
    (Exec.andThen ((NewTB (.testingB b) : UnionTB T B O).ResetTimer fw)
        (fun _ => (NewTB (.testingB b) : UnionTB T B O).N fw) s
      = .ret (fw.bN b s) (fw.bResetTimer b s) ↔
      fw.bN b (fw.bResetTimer b s) = fw.bN b s) := by
  refine ⟨rfl, rfl, ?_, rfl, rfl, ?_⟩
  · simp [Exec.andThen, NewTB, UnionTB.ResetTimer, TestingTB.assertB]
  · simp [Exec.andThen, NewTB, UnionTB.ResetTimer, UnionTB.N, TestingTB.assertB]

/-- Witness for C9 (amended): the reset of the concrete framework clears the
elapsed time, which is idempotent and keeps the count, so there two calls equal
one call and `N` still returns 100. -/
theorem resetTimer_bench_forwards_witness :
    Exec.andThen (benchHandle.ResetTimer simFw) (fun _ => benchHandle.ResetTimer simFw)
        (Sim.mk 100 42 0) = benchHandle.ResetTimer simFw (Sim.mk 100 42 0) ∧
    Exec.andThen (benchHandle.ResetTimer simFw) (fun _ => benchHandle.N simFw)
        (Sim.mk 100 42 0) = .ret 100 (Sim.mk 100 0 0) :=
  have h := @resetTimer_bench_forwards Sim Unit Unit Unit simFw () (Sim.mk 100 42 0)
  ⟨h.2.2.1.mpr rfl, h.2.2.2.2.2.mpr rfl⟩

/-- Counterexample for C10: on the handle that wraps a nil `*testing.B` the
type assertion succeeds, `IsBenchmark` returns true, and both `N` and
`ResetTimer` abort with a nil dereference. -/
theorem getters_abort_on_nil_bench :
    nilBenchHandle.IsBenchmark (Sim.mk 100 0 0) = .ret true (Sim.mk 100 0 0) ∧
    Nilable.N simFw nilBenchHandle (Sim.mk 100 0 0)
      = .abort "runtime error: invalid memory address or nil pointer dereference"
          (Sim.mk 100 0 0) ∧
    Nilable.ResetTimer simFw nilBenchHandle (Sim.mk 100 0 0)
      = .abort "runtime error: invalid memory address or nil pointer dereference"
          (Sim.mk 100 0 0) :=
  ⟨rfl, rfl, rfl⟩

/-- Claim C10, amended: `IsBenchmark` returns on every handle. `N` and
`ResetTimer` abort exactly when the wrapped value is a nil `*testing.B`, and
return on every other handle, where on a live benchmark they are the methods of
the embedding over live contexts. On a wrapped value that is neither a test nor
a benchmark context `N` returns 1, `IsBenchmark` false, `ResetTimer` the
unchanged state, and `Run` aborts. -/
theorem getters_abort_iff_nil_bench (fw : Testing σ T B)
    (tb : UnionTB (Ptr T) (Ptr B) O) (s : σ) :
    (∃ v, tb.IsBenchmark s = .ret v s) ∧
    ((∃ m s1, Nilable.N fw tb s = .abort m s1) ↔ tb.TB = .testingB .nil) ∧
    ((∃ m s1, Nilable.ResetTimer fw tb s = .abort m s1) ↔ tb.TB = .testingB .nil) ∧
    (tb.TB ≠ .testingB .nil →
      (∃ n, Nilable.N fw tb s = .ret n s) ∧
      (∃ s1, Nilable.ResetTimer fw tb s = .ret () s1)) ∧
    (∀ b : B,
      Nilable.N fw (NewTB (.testingB (.addr b)) : UnionTB (Ptr T) (Ptr B) O) s
        = (NewTB (.testingB b) : UnionTB T B O).N fw s ∧
      Nilable.ResetTimer fw (NewTB (.testingB (.addr b)) : UnionTB (Ptr T) (Ptr B) O) s
        = (NewTB (.testingB b) : UnionTB T B O).ResetTimer fw s) ∧
    (∀ o : O,
      Nilable.N fw (NewTB (.other o) : UnionTB (Ptr T) (Ptr B) O) s = .ret 1 s ∧
      (NewTB (.other o) : UnionTB (Ptr T) (Ptr B) O).IsBenchmark s = .ret false s ∧
      Nilable.ResetTimer fw (NewTB (.other o) : UnionTB (Ptr T) (Ptr B) O) s = .ret () s ∧
      ∀ (fwp : Testing σ (Ptr T) (Ptr B)) (name : String)
        (f : UnionTB (Ptr T) (Ptr B) O → σ → σ),
        (NewTB (.other o)).Run fwp name f s
          = .abort "not a benchmark and not a test" s) := by
  obtain ⟨c⟩ := tb
  refine ⟨?_, ?_, ?_, ?_, fun b => ⟨rfl, rfl⟩, fun o => ⟨rfl, rfl, rfl, fun _ _ _ => rfl⟩⟩
  · cases c <;> exact ⟨_, rfl⟩
  · rcases c with t | (_ | b) | o <;>
      simp [Nilable.N, TestingTB.assertB]
  · rcases c with t | (_ | b) | o <;>
      simp [Nilable.ResetTimer, TestingTB.assertB]
  · intro h
    rcases c with t | (_ | b) | o
    · exact ⟨⟨_, rfl⟩, ⟨_, rfl⟩⟩
    · exact absurd rfl h
    · exact ⟨⟨_, rfl⟩, ⟨_, rfl⟩⟩
    · exact ⟨⟨_, rfl⟩, ⟨_, rfl⟩⟩

/-- Witness for C10 (amended): on the handle that wraps a live benchmark of the
concrete framework, which is not a nil pointer, `N` and `ResetTimer` return. -/
theorem getters_abort_iff_nil_bench_witness :
    (∃ n, Nilable.N simFw (NewTB (.testingB (.addr ())) : UnionTB (Ptr Unit) (Ptr Unit) Unit)
      (Sim.mk 100 42 0) = .ret n (Sim.mk 100 42 0)) ∧
    (∃ s1, Nilable.ResetTimer simFw
      (NewTB (.testingB (.addr ())) : UnionTB (Ptr Unit) (Ptr Unit) Unit)
      (Sim.mk 100 42 0) = .ret () s1) :=
  (@getters_abort_iff_nil_bench Sim Unit Unit Unit simFw
    (NewTB (.testingB (.addr ()))) (Sim.mk 100 42 0)).2.2.2.1 (by simp [NewTB])

end testutil
